import Mathlib

/-!
# Statistics model of the database load generator (`src/main.go`)

A shallow embedding of the statistics code of `main.go`: the loop body of
`runQuery`, `updateQueryTimeStats`, the launch loop of `stressTest`, the
average computed in `printQueriesPerUser`, and `calculatePercentage`.

Modelling conventions.

* `time.Duration` is `int64` nanoseconds.  It is embedded as `Int`, and every
  `+`, `*` and `/` on durations goes through `wrap64`, Go's two's-complement
  wrap-around.  `/` is Go's truncating division (`Int.tdiv`); a zero divisor
  is a run-time panic, embedded as `none`.
* The `int` counters (`TotalQueries`, `SuccessfulQueries`, `FailedQueryCount`)
  advance by one per executed query, and each execution is followed by a
  10 ms sleep; they are embedded as unbounded `Int`.
* `map[int]UserStats` is a partial function `Int → Option UserStats`.
* The database and the clock are the environment: every `db.Exec` yields an
  `Outcome` (elapsed time and whether `err == nil`).
* Workers are taken one after another (a sequential schedule of the
  goroutines started by `stressTest`).

The file has three parts: the definitions, the lemmas about them, and the
claims `C1` .. `C10` in order.
-/

namespace Stress

/-- Two's-complement wrap-around of an integer into the `int64` range. -/
def wrap64 (x : Int) : Int :=
  (x + 9223372036854775808) % 18446744073709551616 - 9223372036854775808

/-- The largest `int64`. -/
def maxInt64 : Int := 9223372036854775807

/-- Go `int64` addition. -/
def add64 (x y : Int) : Int := wrap64 (x + y)

/-- Go `int64` multiplication. -/
def mul64 (x y : Int) : Int := wrap64 (x * y)

/-- Go `int64` division: truncating, panics (`none`) on a zero divisor. -/
def div64 (x y : Int) : Option Int :=
  if y = 0 then none else some (wrap64 (Int.tdiv x y))

/-- Go struct `UserStats`. -/
structure UserStats where
  TotalQueries : Int
  TotalTime : Int
  LongestTime : Int
  ShortestTime : Int
  LongestQuery : String
  ShortestQuery : String
  deriving DecidableEq, Repr

/-- The zero value `UserStats{}`. -/
def UserStats.zero : UserStats :=
  { TotalQueries := 0, TotalTime := 0, LongestTime := 0, ShortestTime := 0,
    LongestQuery := "", ShortestQuery := "" }

/-- Go struct `QueryStats`; `StartTime` is an instant in nanoseconds. -/
structure QueryStats where
  TotalQueries : Int
  QueriesPerUser : Int → Option UserStats
  AverageQueryTime : Int
  MaxQueryTime : Int
  MinQueryTime : Int
  FailedQueryCount : Int
  SuccessfulQueries : Int
  StartTime : Int

/-- The `QueryStats` built in `main`: an empty map, the start instant, and
zero everywhere else. -/
def initialStats (start : Int) : QueryStats :=
  { TotalQueries := 0, QueriesPerUser := fun _ => none, AverageQueryTime := 0,
    MaxQueryTime := 0, MinQueryTime := 0, FailedQueryCount := 0,
    SuccessfulQueries := 0, StartTime := start }

/-- What the environment returns for one `db.Exec`: the measured
`time.Since(startTime)` and whether `err == nil`. -/
structure Outcome where
  elapsed : Int
  ok : Bool
  deriving DecidableEq, Repr

/-- Lines 62-75 of `runQuery`: the update of one user's entry. -/
def updateUserStats (query : String) (elapsedTime : Int) (userStats : UserStats) :
    UserStats :=
  let u1 : UserStats :=
    { userStats with
      TotalQueries := userStats.TotalQueries + 1
      TotalTime := add64 userStats.TotalTime elapsedTime }
  let u2 : UserStats :=
    if elapsedTime > u1.LongestTime then
      { u1 with LongestTime := elapsedTime, LongestQuery := query }
    else u1
  if elapsedTime < u2.ShortestTime ∨ u2.ShortestTime = 0 then
    { u2 with ShortestTime := elapsedTime, ShortestQuery := query }
  else u2

/-- Lines 43-81 of `runQuery`: the body of the inner loop for one `user`,
given the outcome of its `db.Exec`. -/
def recordExecution (query : String) (user : Int) (o : Outcome) (stats : QueryStats) :
    QueryStats :=
  let s1 : QueryStats :=
    if o.ok then { stats with SuccessfulQueries := stats.SuccessfulQueries + 1 }
    else { stats with FailedQueryCount := stats.FailedQueryCount + 1 }
  let s2 : QueryStats := { s1 with TotalQueries := s1.TotalQueries + 1 }
  let userStats : UserStats :=
    match s2.QueriesPerUser user with
    | some u => u
    | none => UserStats.zero
  let userStats := updateUserStats query o.elapsed userStats
  { s2 with
    QueriesPerUser := fun k => if k = user then some userStats else s2.QueriesPerUser k }

/-- Go function `updateQueryTimeStats`; `none` is the integer-divide-by-zero
panic. -/
def updateQueryTimeStats (stats : QueryStats) (elapsedTime : Int) : Option QueryStats :=
  let s1 : QueryStats :=
    if elapsedTime > stats.MaxQueryTime then { stats with MaxQueryTime := elapsedTime }
    else stats
  let s2 : QueryStats :=
    if elapsedTime < s1.MinQueryTime ∨ s1.MinQueryTime = 0 then
      { s1 with MinQueryTime := elapsedTime }
    else s1
  (div64 (mul64 s2.AverageQueryTime (s2.TotalQueries - 1)) s2.TotalQueries).bind fun q1 =>
  (div64 elapsedTime s2.TotalQueries).bind fun q2 =>
  some { s2 with AverageQueryTime := add64 q1 q2 }

/-- The users visited by `for user := 1; user <= concurrency; user++`. -/
def userRange (concurrency : Int) : List Int :=
  List.map (fun (k : Nat) => (k : Int) + 1) (List.range concurrency.toNat)

/-- Lines 42-82: the inner loop of `runQuery` for iteration `i`; `exec i user`
is the outcome of the `db.Exec` of that pass. -/
def runQueryUsers (query : String) (exec : Nat → Int → Outcome) (concurrency : Int)
    (i : Nat) (stats : QueryStats) : QueryStats :=
  (userRange concurrency).foldl (fun s user => recordExecution query user (exec i user) s) stats

/-- Lines 41-84: the two nested loops of `runQuery`. -/
def runQueryLoop (query : String) (exec : Nat → Int → Outcome) (concurrency iteration : Int)
    (stats : QueryStats) : QueryStats :=
  (List.range iteration.toNat).foldl (fun s i => runQueryUsers query exec concurrency i s) stats

/-- Go function `runQuery`: the loops, then `updateQueryTimeStats` with
`sinceStart = time.Since(stats.StartTime)`.  The send on `results` and the
sleeps do not touch `stats` and are left out. -/
def runQuery (query : String) (exec : Nat → Int → Outcome) (sinceStart : Int)
    (concurrency iteration : Int) (stats : QueryStats) : Option QueryStats :=
  updateQueryTimeStats (runQueryLoop query exec concurrency iteration stats) sinceStart

/-- The environment of a run: the outcome of every `db.Exec` (by worker,
iteration and user) and every worker's `time.Since(stats.StartTime)`. -/
structure Env where
  exec : Nat → Nat → Int → Outcome
  since : Nat → Int

/-- The first `k` workers launched by `stressTest`, each `runQuery` run to
completion before the next starts. -/
def runWorkers (query : String) (env : Env) (concurrency iteration : Int) (k : Nat)
    (stats : QueryStats) : Option QueryStats :=
  (List.range k).foldl
    (fun acc w => acc.bind fun s =>
      runQuery query (env.exec w) (env.since w) concurrency iteration s)
    (some stats)

/-- Go function `stressTest` (lines 115-120): `concurrency` workers, then the
wait for all of them. -/
def stressTest (query : String) (env : Env) (concurrency iteration : Int)
    (stats : QueryStats) : Option QueryStats :=
  runWorkers query env concurrency iteration concurrency.toNat stats

/-- Line 129 of `printQueriesPerUser`:
`userStats.TotalTime / time.Duration(userStats.TotalQueries)`. -/
def averageTime (userStats : UserStats) : Option Int :=
  div64 userStats.TotalTime userStats.TotalQueries

/-- Go function `calculatePercentage`, with the `float64` division passed in
as a possibly failing operation. -/
def calculatePercentageWith (fdiv : Float → Float → Option Float) (count total : Int) :
    Option Float :=
  if total = 0 then some 0.0
  else (fdiv (Float.ofInt count) (Float.ofInt total)).map fun r => r * 100

/-- Go function `calculatePercentage`. -/
def calculatePercentage (count total : Int) : Float :=
  if total = 0 then 0.0 else Float.ofInt count / Float.ofInt total * 100

/-- An environment in which every query succeeds after `d` nanoseconds. -/
def Env.allSucceed (d : Int) : Env :=
  { exec := fun _ _ _ => { elapsed := d, ok := true }, since := fun w => d * ((w : Int) + 1) }

/-- The three global counters agree: every execution is counted once as a
success or once as a failure. -/
def CountersAgree (s : QueryStats) : Prop :=
  s.SuccessfulQueries + s.FailedQueryCount = s.TotalQueries

/-- The incremental mean in the words of the specification:
`newAvg = oldAvg + (duration - oldAvg) / totalExecutions`, in `int64`. -/
def specIncrementalMean (oldAvg duration totalExecutions : Int) : Option Int :=
  (div64 (wrap64 (duration - oldAvg)) totalExecutions).map fun q => add64 oldAvg q

/-- The samples of a user lie between the recorded extremes, on a non-empty
entry without wrap-around: the bounds are stated on sums, free of division. -/
def UserStats.Bounded (u : UserStats) : Prop :=
  1 ≤ u.TotalQueries ∧ 0 < u.ShortestTime ∧ 0 ≤ u.TotalTime ∧
    u.ShortestTime * u.TotalQueries ≤ u.TotalTime ∧
    u.TotalTime ≤ u.LongestTime * u.TotalQueries

/-- The loop body of `runQuery` applied to a list of samples
`(user, outcome)`, first to last. -/
def recordAll (query : String) (samples : List (Int × Outcome)) (stats : QueryStats) :
    QueryStats :=
  samples.foldl (fun s p => recordExecution query p.1 p.2 s) stats

/-- A sequence of calls of `updateQueryTimeStats`; each call `(n, e)` finds
`TotalQueries = n` and passes the elapsed time `e`. -/
def updateAll (calls : List (Int × Int)) (stats : QueryStats) : Option QueryStats :=
  calls.foldl
    (fun acc p => acc.bind fun s => updateQueryTimeStats { s with TotalQueries := p.1 } p.2)
    (some stats)

/-- The global time statistics are ordered and below the bound `E`. -/
def QueryStats.TimesOrdered (E : Int) (s : QueryStats) : Prop :=
  0 ≤ s.AverageQueryTime ∧ s.AverageQueryTime ≤ s.MaxQueryTime ∧ 0 ≤ s.MinQueryTime ∧
    s.MinQueryTime ≤ s.MaxQueryTime ∧ s.MaxQueryTime ≤ E

/-- The number of executions recorded for `user`: the `TotalQueries` of its
entry, 0 when the map has no entry. -/
def perUserCount (stats : QueryStats) (user : Int) : Int :=
  match stats.QueriesPerUser user with
  | some u => u.TotalQueries
  | none => 0

/-! ## Arithmetic of `int64` -/

theorem wrap64_of_range {x : Int} (h1 : -9223372036854775808 ≤ x)
    (h2 : x ≤ 9223372036854775807) : wrap64 x = x := by
  unfold wrap64; omega

theorem wrap64_add_wrap64 (x y : Int) : wrap64 (wrap64 x + y) = wrap64 (x + y) := by
  unfold wrap64; omega

/-! ## Field lemmas for the two mutations -/

@[simp] theorem recordExecution_TotalQueries (query : String) (user : Int) (o : Outcome)
    (s : QueryStats) :
    (recordExecution query user o s).TotalQueries = s.TotalQueries + 1 := by
  unfold recordExecution; split <;> rfl

theorem recordExecution_counters (query : String) (user : Int) (o : Outcome) (s : QueryStats) :
    (recordExecution query user o s).SuccessfulQueries
        = s.SuccessfulQueries + (if o.ok then 1 else 0) ∧
      (recordExecution query user o s).FailedQueryCount
        = s.FailedQueryCount + (if o.ok then 0 else 1) := by
  unfold recordExecution; split <;> simp

theorem updateQueryTimeStats_some (s : QueryStats) (e : Int) (h : s.TotalQueries ≠ 0) :
    updateQueryTimeStats s e = some
      { s with
        MaxQueryTime := if e > s.MaxQueryTime then e else s.MaxQueryTime
        MinQueryTime := if e < s.MinQueryTime ∨ s.MinQueryTime = 0 then e else s.MinQueryTime
        AverageQueryTime :=
          add64 (wrap64 (Int.tdiv (mul64 s.AverageQueryTime (s.TotalQueries - 1)) s.TotalQueries))
            (wrap64 (Int.tdiv e s.TotalQueries)) } := by
  unfold updateQueryTimeStats div64
  by_cases h1 : e > s.MaxQueryTime <;> by_cases h2 : e < s.MinQueryTime ∨ s.MinQueryTime = 0 <;>
    simp [h, h1, h2]

theorem updateQueryTimeStats_none (s : QueryStats) (e : Int) (h : s.TotalQueries = 0) :
    updateQueryTimeStats s e = none := by
  unfold updateQueryTimeStats div64
  by_cases h1 : e > s.MaxQueryTime <;> by_cases h2 : e < s.MinQueryTime ∨ s.MinQueryTime = 0 <;>
    simp [h, h1, h2]

theorem countersAgree_recordExecution {s : QueryStats} (h : CountersAgree s) (query : String)
    (user : Int) (o : Outcome) : CountersAgree (recordExecution query user o s) := by
  unfold CountersAgree at *
  obtain ⟨h1, h2⟩ := recordExecution_counters query user o s
  rw [h1, h2, recordExecution_TotalQueries]
  cases o.ok <;> simp <;> omega

theorem countersAgree_foldl_recordExecution (query : String) (steps : List (Int × Outcome)) :
    ∀ {s : QueryStats}, CountersAgree s →
      CountersAgree (steps.foldl (fun s p => recordExecution query p.1 p.2 s) s) := by
  induction steps with
  | nil => intro s h; exact h
  | cons p ps ih => intro s h; exact ih (countersAgree_recordExecution h query p.1 p.2)

theorem countersAgree_updateQueryTimeStats {s s' : QueryStats} (h : CountersAgree s) {e : Int}
    (hs : updateQueryTimeStats s e = some s') : CountersAgree s' := by
  by_cases h0 : s.TotalQueries = 0
  · rw [updateQueryTimeStats_none s e h0] at hs; cases hs
  · rw [updateQueryTimeStats_some s e h0] at hs
    cases hs
    exact h

theorem countersAgree_runQueryLoop {s : QueryStats} (h : CountersAgree s) (query : String)
    (exec : Nat → Int → Outcome) (c i : Int) :
    CountersAgree (runQueryLoop query exec c i s) := by
  unfold runQueryLoop
  generalize List.range i.toNat = its
  induction its generalizing s with
  | nil => exact h
  | cons a as ih =>
    apply ih
    unfold runQueryUsers
    generalize userRange c = us
    induction us generalizing s with
    | nil => exact h
    | cons u us ihu => exact ihu (countersAgree_recordExecution h query u (exec a u))

theorem countersAgree_runWorkers (query : String) (env : Env) (c i : Int) (k : Nat) :
    ∀ {s s' : QueryStats}, CountersAgree s →
      runWorkers query env c i k s = some s' → CountersAgree s' := by
  induction k with
  | zero =>
    intro s s' h hs
    simp [runWorkers] at hs
    exact hs ▸ h
  | succ k ih =>
    intro s s' h hs
    unfold runWorkers at hs
    rw [List.range_succ, List.foldl_append] at hs
    simp only [List.foldl_cons, List.foldl_nil] at hs
    cases hk : runWorkers query env c i k s with
    | none =>
      unfold runWorkers at hk
      rw [hk] at hs; cases hs
    | some sk =>
      unfold runWorkers at hk
      rw [hk] at hs
      simp only [Option.bind_some, Option.some_bind] at hs
      exact countersAgree_updateQueryTimeStats
        (countersAgree_runQueryLoop (ih h (by unfold runWorkers; exact hk)) query _ c i) hs

theorem countersAgree_initialStats (start : Int) : CountersAgree (initialStats start) := by
  simp [CountersAgree, initialStats]

/-! ## Counting the executions of a run -/

theorem userRange_length (c : Int) : (userRange c).length = c.toNat := by
  unfold userRange
  rw [List.length_map, List.length_range]

theorem foldl_recordExecution_TotalQueries (query : String) (f : Int → Outcome) (us : List Int)
    (s : QueryStats) :
    (us.foldl (fun s user => recordExecution query user (f user) s) s).TotalQueries
      = s.TotalQueries + us.length := by
  induction us generalizing s with
  | nil => simp
  | cons u us ih =>
    simp only [List.foldl_cons, List.length_cons]
    rw [ih, recordExecution_TotalQueries]
    push_cast; ring

theorem runQueryUsers_TotalQueries (query : String) (exec : Nat → Int → Outcome) (c : Int)
    (i : Nat) (s : QueryStats) :
    (runQueryUsers query exec c i s).TotalQueries = s.TotalQueries + c.toNat := by
  unfold runQueryUsers
  rw [foldl_recordExecution_TotalQueries query (exec i), userRange_length]

theorem foldl_runQueryUsers_TotalQueries (query : String) (exec : Nat → Int → Outcome) (c : Int)
    (its : List Nat) (s : QueryStats) :
    (its.foldl (fun s i => runQueryUsers query exec c i s) s).TotalQueries
      = s.TotalQueries + c.toNat * its.length := by
  induction its generalizing s with
  | nil => simp
  | cons a as ih =>
    simp only [List.foldl_cons, List.length_cons]
    rw [ih, runQueryUsers_TotalQueries]
    push_cast; ring

theorem runQueryLoop_TotalQueries (query : String) (exec : Nat → Int → Outcome) (c i : Int)
    (s : QueryStats) :
    (runQueryLoop query exec c i s).TotalQueries = s.TotalQueries + c.toNat * i.toNat := by
  unfold runQueryLoop
  rw [foldl_runQueryUsers_TotalQueries, List.length_range]

theorem runWorkers_succ (query : String) (env : Env) (c i : Int) (k : Nat) (s : QueryStats) :
    runWorkers query env c i (k + 1) s
      = (runWorkers query env c i k s).bind fun sk =>
          runQuery query (env.exec k) (env.since k) c i sk := by
  unfold runWorkers
  rw [List.range_succ, List.foldl_append]
  rfl

theorem runWorkers_TotalQueries (query : String) (env : Env) (c i : Int) (hc : 1 ≤ c)
    (hi : 1 ≤ i) (s : QueryStats) (hs : 0 ≤ s.TotalQueries) (k : Nat) :
    ∃ sk, runWorkers query env c i k s = some sk ∧
      sk.TotalQueries = s.TotalQueries + k * (c.toNat * i.toNat) := by
  induction k with
  | zero => exact ⟨s, rfl, by simp⟩
  | succ k ih =>
    obtain ⟨sk, hk, hT⟩ := ih
    have hpos : (0 : Int) < c.toNat * i.toNat := by
      have h1 : (c.toNat : Int) = c := Int.toNat_of_nonneg (by omega)
      have h2 : (i.toNat : Int) = i := Int.toNat_of_nonneg (by omega)
      rw [h1, h2]; positivity
    have hk0 : 0 ≤ (k : Int) * (c.toNat * i.toNat) := by positivity
    have hne : (runQueryLoop query (env.exec k) c i sk).TotalQueries ≠ 0 := by
      rw [runQueryLoop_TotalQueries, hT]; omega
    rw [runWorkers_succ, hk]
    simp only [Option.some_bind, runQuery]
    rw [updateQueryTimeStats_some _ _ hne]
    refine ⟨_, rfl, ?_⟩
    show (runQueryLoop query (env.exec k) c i sk).TotalQueries = _
    rw [runQueryLoop_TotalQueries, hT]
    push_cast; ring

theorem stressTest_TotalQueries (query : String) (env : Env) (c i start : Int) (hc : 1 ≤ c)
    (hi : 1 ≤ i) :
    ∃ s, stressTest query env c i (initialStats start) = some s ∧ s.TotalQueries = c * c * i := by
  obtain ⟨s, hs, hT⟩ := runWorkers_TotalQueries query env c i hc hi (initialStats start)
    (le_refl _) c.toNat
  refine ⟨s, hs, ?_⟩
  have h1 : (c.toNat : Int) = c := Int.toNat_of_nonneg (by omega)
  have h2 : (i.toNat : Int) = i := Int.toNat_of_nonneg (by omega)
  have h0 : (initialStats start).TotalQueries = 0 := rfl
  rw [hT, h0, h1, h2]
  ring

/-! ## One user's entry -/

theorem updateUserStats_fields (query : String) (e : Int) (u : UserStats) :
    (updateUserStats query e u).TotalQueries = u.TotalQueries + 1 ∧
      (updateUserStats query e u).TotalTime = wrap64 (u.TotalTime + e) ∧
      (updateUserStats query e u).LongestTime = (if e > u.LongestTime then e else u.LongestTime) ∧
      (updateUserStats query e u).ShortestTime
        = (if e < u.ShortestTime ∨ u.ShortestTime = 0 then e else u.ShortestTime) := by
  unfold updateUserStats add64
  by_cases h1 : e > u.LongestTime <;> by_cases h2 : e < u.ShortestTime ∨ u.ShortestTime = 0 <;>
    simp [h1, h2]

theorem bounded_first (query : String) {e : Int} (he : 0 < e) (hm : e ≤ maxInt64) :
    (updateUserStats query e UserStats.zero).Bounded ∧
      (updateUserStats query e UserStats.zero).TotalTime = e := by
  obtain ⟨h1, h2, h3, h4⟩ := updateUserStats_fields query e UserStats.zero
  unfold maxInt64 at hm
  have hw : wrap64 (0 + e) = e := by unfold wrap64; omega
  have z1 : UserStats.zero.TotalQueries = 0 := rfl
  have z2 : UserStats.zero.TotalTime = 0 := rfl
  have z3 : UserStats.zero.LongestTime = 0 := rfl
  have z4 : UserStats.zero.ShortestTime = 0 := rfl
  rw [z1] at h1
  rw [z2, hw] at h2
  rw [z3, if_pos he] at h3
  rw [z4, if_pos (Or.inr rfl)] at h4
  refine ⟨?_, h2⟩
  unfold UserStats.Bounded
  rw [h1, h2, h3, h4]
  omega

theorem bounded_step (query : String) {e : Int} {u : UserStats} (hu : u.Bounded)
    (he : 0 < e) (hm : u.TotalTime + e ≤ maxInt64) :
    (updateUserStats query e u).Bounded ∧
      (updateUserStats query e u).TotalTime = u.TotalTime + e := by
  obtain ⟨h1, h2, h3, h4⟩ := updateUserStats_fields query e u
  obtain ⟨b1, b2, b3, b4, b5⟩ := hu
  unfold maxInt64 at hm
  have hw : wrap64 (u.TotalTime + e) = u.TotalTime + e := by unfold wrap64; omega
  rw [hw] at h2
  refine ⟨⟨?_, ?_, ?_, ?_, ?_⟩, h2⟩
  · omega
  · rw [h4]; split <;> omega
  · omega
  · rw [h1, h2, h4]
    split
    · rename_i h
      have : e < u.ShortestTime := by omega
      nlinarith
    · rename_i h
      have : u.ShortestTime ≤ e := by omega
      nlinarith
  · rw [h1, h2, h3]
    split
    · rename_i h
      nlinarith
    · rename_i h
      have : e ≤ u.LongestTime := by omega
      nlinarith

theorem bounded_foldl (query : String) (es : List Int) :
    ∀ {u : UserStats}, u.Bounded → (∀ e ∈ es, 0 < e) → u.TotalTime + es.sum ≤ maxInt64 →
      (es.foldl (fun u e => updateUserStats query e u) u).Bounded := by
  induction es with
  | nil => intro u hu _ _; exact hu
  | cons e es ih =>
    intro u hu hpos hsum
    have he : 0 < e := hpos e (List.mem_cons_self _ _)
    have hes : ∀ x ∈ es, 0 < x := fun x hx => hpos x (List.mem_cons_of_mem _ hx)
    have hnn : 0 ≤ es.sum := List.sum_nonneg fun x hx => le_of_lt (hes x hx)
    rw [List.sum_cons] at hsum
    obtain ⟨hb, ht⟩ := bounded_step query hu he (by omega)
    simp only [List.foldl_cons]
    exact ih hb hes (by rw [ht]; omega)

theorem bounded_foldl_TotalTime (query : String) (es : List Int) :
    ∀ {u : UserStats}, u.Bounded → (∀ e ∈ es, 0 < e) → u.TotalTime + es.sum ≤ maxInt64 →
      (es.foldl (fun u e => updateUserStats query e u) u).TotalTime = u.TotalTime + es.sum := by
  induction es with
  | nil => intro u _ _ _; simp
  | cons e es ih =>
    intro u hu hpos hsum
    have he : 0 < e := hpos e (List.mem_cons_self _ _)
    have hes : ∀ x ∈ es, 0 < x := fun x hx => hpos x (List.mem_cons_of_mem _ hx)
    have hnn : 0 ≤ es.sum := List.sum_nonneg fun x hx => le_of_lt (hes x hx)
    rw [List.sum_cons] at hsum
    obtain ⟨hb, ht⟩ := bounded_step query hu he (by omega)
    simp only [List.foldl_cons, List.sum_cons]
    rw [ih hb hes (by rw [ht]; omega), ht]
    ring

theorem bounded_average {u : UserStats} (hu : u.Bounded) (hm : u.TotalTime ≤ maxInt64) :
    ∃ avg, averageTime u = some avg ∧ u.ShortestTime ≤ avg ∧ avg ≤ u.LongestTime := by
  obtain ⟨b1, b2, b3, b4, b5⟩ := hu
  unfold maxInt64 at hm
  have hn : 0 < u.TotalQueries := by omega
  have hq0 : 0 ≤ u.TotalTime / u.TotalQueries := Int.ediv_nonneg b3 (by omega)
  have hql : u.TotalTime / u.TotalQueries * u.TotalQueries ≤ u.TotalTime :=
    Int.ediv_mul_le _ (by omega)
  have hqt : u.TotalTime / u.TotalQueries ≤ u.TotalTime := by nlinarith
  refine ⟨u.TotalTime / u.TotalQueries, ?_, Int.le_ediv_of_mul_le hn b4,
    Int.ediv_le_of_le_mul hn b5⟩
  unfold averageTime div64
  rw [if_neg (by omega), Int.tdiv_eq_ediv b3 (by omega), wrap64_of_range (by omega) (by omega)]

theorem recordExecution_QueriesPerUser_self (query : String) (user : Int) (o : Outcome)
    (s : QueryStats) :
    (recordExecution query user o s).QueriesPerUser user
      = some (updateUserStats query o.elapsed ((s.QueriesPerUser user).getD UserStats.zero)) := by
  unfold recordExecution
  cases o.ok <;> cases h : s.QueriesPerUser user <;> simp [h]

theorem foldl_recordExecution_QueriesPerUser_self (query : String) (user : Int)
    (os : List Outcome) :
    ∀ (o : Outcome) (s : QueryStats),
      ((o :: os).foldl (fun s o => recordExecution query user o s) s).QueriesPerUser user
        = some (((o :: os).map Outcome.elapsed).foldl (fun u e => updateUserStats query e u)
            ((s.QueriesPerUser user).getD UserStats.zero)) := by
  induction os with
  | nil => intro o s; exact recordExecution_QueriesPerUser_self query user o s
  | cons o2 os ih =>
    intro o s
    have h := ih o2 (recordExecution query user o s)
    rw [recordExecution_QueriesPerUser_self] at h
    exact h

/-! ## Order of the executions -/

theorem updateUserStats_eq (query : String) (e : Int) (u : UserStats) :
    updateUserStats query e u =
      { TotalQueries := u.TotalQueries + 1
        TotalTime := wrap64 (u.TotalTime + e)
        LongestTime := if e > u.LongestTime then e else u.LongestTime
        ShortestTime := if e < u.ShortestTime ∨ u.ShortestTime = 0 then e else u.ShortestTime
        LongestQuery := if e > u.LongestTime then query else u.LongestQuery
        ShortestQuery :=
          if e < u.ShortestTime ∨ u.ShortestTime = 0 then query else u.ShortestQuery } := by
  unfold updateUserStats add64
  by_cases h1 : e > u.LongestTime <;> by_cases h2 : e < u.ShortestTime ∨ u.ShortestTime = 0 <;>
    simp [h1, h2]

theorem updateUserStats_comm (query : String) {a b : Int} (ha : 0 < a) (hb : 0 < b)
    (u : UserStats) :
    updateUserStats query b (updateUserStats query a u)
      = updateUserStats query a (updateUserStats query b u) := by
  simp only [updateUserStats_eq, UserStats.mk.injEq]
  refine ⟨trivial, ?_, ?_, ?_, ?_, ?_⟩
  · rw [wrap64_add_wrap64, wrap64_add_wrap64]; congr 1; ring
  · split_ifs <;> omega
  · split_ifs <;> omega
  · split_ifs <;> rfl
  · split_ifs <;> rfl

theorem recordExecution_eq (query : String) (user : Int) (o : Outcome) (s : QueryStats) :
    recordExecution query user o s =
      { s with
        SuccessfulQueries := s.SuccessfulQueries + (if o.ok then 1 else 0)
        FailedQueryCount := s.FailedQueryCount + (if o.ok then 0 else 1)
        TotalQueries := s.TotalQueries + 1
        QueriesPerUser := fun k =>
          if k = user then
            some (updateUserStats query o.elapsed ((s.QueriesPerUser user).getD UserStats.zero))
          else s.QueriesPerUser k } := by
  unfold recordExecution
  cases o.ok <;> cases h : s.QueriesPerUser user <;> simp [h]

theorem recordExecution_comm (query : String) (x y : Int × Outcome) (hx : 0 < x.2.elapsed)
    (hy : 0 < y.2.elapsed) (s : QueryStats) :
    recordExecution query y.1 y.2 (recordExecution query x.1 x.2 s)
      = recordExecution query x.1 x.2 (recordExecution query y.1 y.2 s) := by
  simp only [recordExecution_eq, QueryStats.mk.injEq]
  refine ⟨trivial, ?_, trivial, trivial, trivial, by ring, by ring, trivial⟩
  funext k
  by_cases hxy : x.1 = y.1
  · rw [hxy]
    by_cases hk : k = y.1
    · simp only [hk, if_true, Option.getD_some]
      rw [updateUserStats_comm query hx hy]
    · simp only [hk, if_false]
  · have hyx : ¬ y.1 = x.1 := fun h => hxy h.symm
    by_cases hk : k = y.1
    · have hkx : ¬ k = x.1 := fun h => hxy (h.symm.trans hk)
      simp only [hk, hyx, if_true, if_false]
    · by_cases hk2 : k = x.1
      · simp only [hk2, hxy, if_true, if_false]
      · simp only [hk, hk2, if_false]

/-! ## The global time statistics -/

theorem timesOrdered_step {E N : Int} {s : QueryStats} (hs : s.TimesOrdered E)
    {n e : Int} (hn : 1 ≤ n) (hnN : n ≤ N) (he : 0 ≤ e) (heE : e ≤ E) (hEN : E * N ≤ maxInt64) :
    ∃ s2, updateQueryTimeStats { s with TotalQueries := n } e = some s2 ∧ s2.TimesOrdered E := by
  obtain ⟨a0, a1, m0, m1, x1⟩ := hs
  rw [updateQueryTimeStats_some _ _ (show n ≠ 0 by omega)]
  refine ⟨_, rfl, ?_⟩
  unfold maxInt64 at hEN
  set a := s.AverageQueryTime
  set mx := s.MaxQueryTime
  set mn := s.MinQueryTime
  have hn0 : 0 ≤ n := by omega
  have hE0 : 0 ≤ E := by omega
  have hp0 : 0 ≤ a * (n - 1) := mul_nonneg a0 (by omega)
  have hp1 : a * (n - 1) ≤ E * N := by
    have h1 : a * (n - 1) ≤ E * (n - 1) := mul_le_mul_of_nonneg_right (by omega) (by omega)
    have h2 : E * (n - 1) ≤ E * N := mul_le_mul_of_nonneg_left (by omega) hE0
    omega
  have hq1 : 0 ≤ a * (n - 1) / n := Int.ediv_nonneg hp0 hn0
  have hq2 : 0 ≤ e / n := Int.ediv_nonneg he hn0
  have hm1 : a * (n - 1) / n * n ≤ a * (n - 1) := Int.ediv_mul_le _ (by omega)
  have hm2 : e / n * n ≤ e := Int.ediv_mul_le _ (by omega)
  have hmx : mx ≤ (if e > mx then e else mx) := by split <;> omega
  have hex : e ≤ (if e > mx then e else mx) := by split <;> omega
  have hxE : (if e > mx then e else mx) ≤ E := by split <;> omega
  have hsum : (a * (n - 1) / n + e / n) * n ≤ (if e > mx then e else mx) * n := by
    have h3 : a * (n - 1) ≤ (if e > mx then e else mx) * (n - 1) :=
      mul_le_mul_of_nonneg_right (by omega) (by omega)
    nlinarith
  have hle : a * (n - 1) / n + e / n ≤ (if e > mx then e else mx) :=
    le_of_mul_le_mul_right hsum (by omega)
  have hE63 : E ≤ 9223372036854775807 := by nlinarith
  have e0 : mul64 a (n - 1) = a * (n - 1) := wrap64_of_range (by omega) (by omega)
  have hq1le : a * (n - 1) / n ≤ E := by omega
  have hq2le : e / n ≤ E := by omega
  have e1 : wrap64 (Int.tdiv (mul64 a (n - 1)) n) = a * (n - 1) / n := by
    rw [e0, Int.tdiv_eq_ediv hp0 hn0]; exact wrap64_of_range (by omega) (by omega)
  have e2 : wrap64 (Int.tdiv e n) = e / n := by
    rw [Int.tdiv_eq_ediv he hn0]; exact wrap64_of_range (by omega) (by omega)
  have e3 : add64 (a * (n - 1) / n) (e / n) = a * (n - 1) / n + e / n :=
    wrap64_of_range (by omega) (by omega)
  unfold QueryStats.TimesOrdered
  simp only [e1, e2, e3]
  refine ⟨by omega, hle, ?_, ?_, hxE⟩
  · split <;> omega
  · split <;> omega

theorem timesOrdered_updateAll {E N : Int} (hEN : E * N ≤ maxInt64)
    (calls : List (Int × Int)) :
    ∀ {s : QueryStats}, s.TimesOrdered E →
      (∀ p ∈ calls, 1 ≤ p.1 ∧ p.1 ≤ N ∧ 0 ≤ p.2 ∧ p.2 ≤ E) →
      ∃ s2, updateAll calls s = some s2 ∧ s2.TimesOrdered E := by
  induction calls with
  | nil => intro s hs _; exact ⟨s, rfl, hs⟩
  | cons p ps ih =>
    intro s hs hall
    obtain ⟨h1, h2, h3, h4⟩ := hall p (List.mem_cons_self _ _)
    obtain ⟨s1, hs1, ho1⟩ := timesOrdered_step hs h1 h2 h3 h4 hEN
    obtain ⟨s2, hs2, ho2⟩ := ih ho1 fun q hq => hall q (List.mem_cons_of_mem _ hq)
    refine ⟨s2, ?_, ho2⟩
    unfold updateAll at hs2 ⊢
    simp only [List.foldl_cons, Option.some_bind, hs1]
    exact hs2

/-! ## Failures and per-user counts of a run -/

theorem foldl_recordExecution_FailedQueryCount (query : String) (f : Int → Outcome)
    (hf : ∀ u, (f u).ok = true) (us : List Int) (s : QueryStats) :
    (us.foldl (fun s user => recordExecution query user (f user) s) s).FailedQueryCount
      = s.FailedQueryCount := by
  induction us generalizing s with
  | nil => rfl
  | cons u us ih =>
    simp only [List.foldl_cons]
    rw [ih, (recordExecution_counters query u (f u) s).2, hf u]
    simp

theorem runQueryLoop_FailedQueryCount (query : String) (exec : Nat → Int → Outcome)
    (hexec : ∀ i u, (exec i u).ok = true) (c i : Int) (s : QueryStats) :
    (runQueryLoop query exec c i s).FailedQueryCount = s.FailedQueryCount := by
  unfold runQueryLoop
  generalize List.range i.toNat = its
  induction its generalizing s with
  | nil => rfl
  | cons a as ih =>
    simp only [List.foldl_cons]
    rw [ih]
    exact foldl_recordExecution_FailedQueryCount query (exec a) (hexec a) _ s

theorem runQuery_unchanged_fields {query : String} {exec : Nat → Int → Outcome} {e c i : Int}
    {s s2 : QueryStats} (h : runQuery query exec e c i s = some s2) :
    s2.FailedQueryCount = (runQueryLoop query exec c i s).FailedQueryCount ∧
      s2.QueriesPerUser = (runQueryLoop query exec c i s).QueriesPerUser := by
  unfold runQuery at h
  by_cases h0 : (runQueryLoop query exec c i s).TotalQueries = 0
  · rw [updateQueryTimeStats_none _ e h0] at h; cases h
  · rw [updateQueryTimeStats_some _ e h0] at h
    cases h
    exact ⟨rfl, rfl⟩

theorem runWorkers_FailedQueryCount (query : String) (env : Env)
    (henv : ∀ w i u, (env.exec w i u).ok = true) (c i : Int) (k : Nat) :
    ∀ {s sk : QueryStats}, runWorkers query env c i k s = some sk →
      sk.FailedQueryCount = s.FailedQueryCount := by
  induction k with
  | zero => intro s sk h; cases h; rfl
  | succ k ih =>
    intro s sk h
    rw [runWorkers_succ] at h
    cases hk : runWorkers query env c i k s with
    | none => rw [hk] at h; cases h
    | some s1 =>
      rw [hk] at h
      simp only [Option.some_bind] at h
      rw [(runQuery_unchanged_fields h).1, runQueryLoop_FailedQueryCount query _ (henv k), ih hk]

theorem stressTest_allSucceed (query : String) (env : Env)
    (henv : ∀ w i u, (env.exec w i u).ok = true) (c i start : Int) (hc : 1 ≤ c) (hi : 1 ≤ i) :
    ∃ s, stressTest query env c i (initialStats start) = some s ∧ s.TotalQueries = c * c * i ∧
      s.SuccessfulQueries = c * c * i ∧ s.FailedQueryCount = 0 := by
  obtain ⟨s, hs, hT⟩ := stressTest_TotalQueries query env c i start hc hi
  have hF : s.FailedQueryCount = 0 := runWorkers_FailedQueryCount query env henv c i _ hs
  have hA : CountersAgree s :=
    countersAgree_runWorkers query env c i _ (countersAgree_initialStats start) hs
  unfold CountersAgree at hA
  exact ⟨s, hs, hT, by omega, hF⟩

theorem recordExecution_perUserCount (query : String) (user : Int) (o : Outcome)
    (s : QueryStats) (k : Int) :
    perUserCount (recordExecution query user o s) k
      = perUserCount s k + (if k = user then 1 else 0) := by
  unfold perUserCount
  rw [recordExecution_eq]
  by_cases hk : k = user
  · subst hk
    simp only [if_true]
    rw [(updateUserStats_fields query o.elapsed _).1]
    cases s.QueriesPerUser k <;> rfl
  · simp only [hk, if_false]
    cases s.QueriesPerUser k <;> simp

theorem recordExecution_isSome (query : String) (user : Int) (o : Outcome) (s : QueryStats)
    (k : Int) :
    ((recordExecution query user o s).QueriesPerUser k).isSome
      = (decide (k = user) || (s.QueriesPerUser k).isSome) := by
  rw [recordExecution_eq]
  by_cases hk : k = user <;> simp [hk]

theorem foldl_users_perUserCount (query : String) (f : Int → Outcome) (n : Nat) (s : QueryStats)
    (k : Int) :
    perUserCount
        ((List.map (fun (j : Nat) => (j : Int) + 1) (List.range n)).foldl
          (fun s user => recordExecution query user (f user) s) s) k
      = perUserCount s k + (if 1 ≤ k ∧ k ≤ n then 1 else 0) := by
  induction n with
  | zero =>
    have h0 : ¬ (1 ≤ k ∧ k ≤ ((0 : Nat) : Int)) := by omega
    rw [if_neg h0]
    simp
  | succ n ih =>
    rw [List.range_succ, List.map_append, List.foldl_append]
    simp only [List.map_cons, List.map_nil, List.foldl_cons, List.foldl_nil]
    rw [recordExecution_perUserCount, ih]
    push_cast
    split_ifs <;> omega

theorem foldl_users_isSome (query : String) (f : Int → Outcome) (n : Nat) (s : QueryStats)
    (k : Int) :
    (((List.map (fun (j : Nat) => (j : Int) + 1) (List.range n)).foldl
          (fun s user => recordExecution query user (f user) s) s).QueriesPerUser k).isSome
      = (decide (1 ≤ k ∧ k ≤ n) || (s.QueriesPerUser k).isSome) := by
  induction n with
  | zero =>
    have h0 : ¬ (1 ≤ k ∧ k ≤ ((0 : Nat) : Int)) := by omega
    rw [decide_eq_false h0]
    simp
  | succ n ih =>
    rw [List.range_succ, List.map_append, List.foldl_append]
    simp only [List.map_cons, List.map_nil, List.foldl_cons, List.foldl_nil]
    rw [recordExecution_isSome, ih]
    push_cast
    by_cases h1 : k = (n : Int) + 1 <;> by_cases h2 : 1 ≤ k ∧ k ≤ (n : Int) <;>
      by_cases h3 : 1 ≤ k ∧ k ≤ (n : Int) + 1 <;> simp [h1, h2, h3] <;> omega

theorem foldl_runQueryUsers_perUser (query : String) (exec : Nat → Int → Outcome) (c : Int)
    (its : List Nat) (s : QueryStats) (k : Int) :
    perUserCount (its.foldl (fun s i => runQueryUsers query exec c i s) s) k
        = perUserCount s k + its.length * (if 1 ≤ k ∧ k ≤ c.toNat then 1 else 0) ∧
      ((its.foldl (fun s i => runQueryUsers query exec c i s) s).QueriesPerUser k).isSome
        = (decide (its ≠ [] ∧ 1 ≤ k ∧ k ≤ c.toNat) || (s.QueriesPerUser k).isSome) := by
  induction its generalizing s with
  | nil => simp
  | cons a as ih =>
    simp only [List.foldl_cons, List.length_cons]
    obtain ⟨h1, h2⟩ := ih (runQueryUsers query exec c a s)
    rw [h1, h2]
    unfold runQueryUsers userRange
    rw [foldl_users_perUserCount query (exec a), foldl_users_isSome query (exec a)]
    constructor
    · push_cast; ring
    · by_cases h3 : 1 ≤ k ∧ k ≤ (c.toNat : Int) <;> by_cases h4 : as = [] <;> simp [h3, h4]

theorem runQueryLoop_perUser (query : String) (exec : Nat → Int → Outcome) (c i : Int)
    (s : QueryStats) (k : Int) :
    perUserCount (runQueryLoop query exec c i s) k
        = perUserCount s k + i.toNat * (if 1 ≤ k ∧ k ≤ c.toNat then 1 else 0) ∧
      ((runQueryLoop query exec c i s).QueriesPerUser k).isSome
        = (decide (1 ≤ i.toNat ∧ 1 ≤ k ∧ k ≤ c.toNat) || (s.QueriesPerUser k).isSome) := by
  unfold runQueryLoop
  obtain ⟨h1, h2⟩ := foldl_runQueryUsers_perUser query exec c (List.range i.toNat) s k
  rw [h1, h2, List.length_range]
  refine ⟨rfl, ?_⟩
  have : (List.range i.toNat ≠ []) ↔ 1 ≤ i.toNat := by
    rw [Ne, List.range_eq_nil]; omega
  simp only [this]

theorem runWorkers_perUser (query : String) (env : Env) (c i : Int) (hi : 1 ≤ i) (u : Int)
    (k : Nat) :
    ∀ {s sk : QueryStats}, runWorkers query env c i k s = some sk →
      perUserCount sk u
          = perUserCount s u + k * (i.toNat * (if 1 ≤ u ∧ u ≤ c.toNat then 1 else 0)) ∧
        (sk.QueriesPerUser u).isSome
          = (decide (1 ≤ k ∧ 1 ≤ u ∧ u ≤ c.toNat) || (s.QueriesPerUser u).isSome) := by
  induction k with
  | zero => intro s sk h; cases h; simp
  | succ k ih =>
    intro s sk h
    rw [runWorkers_succ] at h
    cases hk : runWorkers query env c i k s with
    | none => rw [hk] at h; cases h
    | some s1 =>
      rw [hk] at h
      simp only [Option.some_bind] at h
      obtain ⟨h1, h2⟩ := ih hk
      obtain ⟨h3, h4⟩ := runQueryLoop_perUser query (env.exec k) c i s1 u
      have hq := (runQuery_unchanged_fields h).2
      have hi1 : 1 ≤ i.toNat := by omega
      constructor
      · unfold perUserCount at h3 h1 ⊢
        rw [hq, h3, h1]
        push_cast; ring
      · rw [hq, h4, h2]
        by_cases h5 : 1 ≤ u ∧ u ≤ (c.toNat : Int) <;> by_cases h6 : 1 ≤ k <;>
          simp [h5, h6, hi1]

theorem stressTest_perUser (query : String) (env : Env) (c i start : Int) (hc : 1 ≤ c)
    (hi : 1 ≤ i) :
    ∃ s, stressTest query env c i (initialStats start) = some s ∧
      ∀ u : Int, (s.QueriesPerUser u).isSome = decide (1 ≤ u ∧ u ≤ c) ∧
        perUserCount s u = if 1 ≤ u ∧ u ≤ c then c * i else 0 := by
  obtain ⟨s, hs, _⟩ := stressTest_TotalQueries query env c i start hc hi
  refine ⟨s, hs, fun u => ?_⟩
  obtain ⟨h1, h2⟩ := runWorkers_perUser query env c i hi u c.toNat hs
  have hc1 : (c.toNat : Int) = c := Int.toNat_of_nonneg (by omega)
  have hi1 : (i.toNat : Int) = i := Int.toNat_of_nonneg (by omega)
  have hcn : 1 ≤ c.toNat := by omega
  have h0 : perUserCount (initialStats start) u = 0 := rfl
  have h00 : ((initialStats start).QueriesPerUser u).isSome = false := rfl
  rw [h1, h2, h0, h00, hc1, hi1]
  constructor
  · simp [hcn]
  · split_ifs <;> simp

/-! ## Claims -/

/-- C1: a complete run with `concurrency = 2`, `iteration = 1` and every query
succeeding ends with `TotalQueries = 4` and `SuccessfulQueries = 4` (not 2):
each of the two workers walks over both users. -/
theorem stressTest_two_workers_one_iteration :
    (stressTest "SELECT 1" (Env.allSucceed 5000000) 2 1 (initialStats 0)).map
        (fun s => (s.TotalQueries, s.SuccessfulQueries, s.FailedQueryCount))
      = some (4, 4, 0) := by
  decide

/-- C2: starting from the initial `QueryStats`, after any number of workers
run to completion and then any sequence of executions of the loop body of
`runQuery` (any users, any outcomes),
`SuccessfulQueries + FailedQueryCount = TotalQueries`. -/
theorem successful_plus_failed_eq_total (query : String) (start : Int) (env : Env) (c i : Int)
    (steps : List (Int × Outcome)) :
    (steps.foldl (fun s p => recordExecution query p.1 p.2 s) (initialStats start)).SuccessfulQueries
        + (steps.foldl (fun s p => recordExecution query p.1 p.2 s)
            (initialStats start)).FailedQueryCount
        = (steps.foldl (fun s p => recordExecution query p.1 p.2 s)
            (initialStats start)).TotalQueries ∧
      ∀ (k : Nat) (sk : QueryStats), runWorkers query env c i k (initialStats start) = some sk →
        (steps.foldl (fun s p => recordExecution query p.1 p.2 s) sk).SuccessfulQueries
          + (steps.foldl (fun s p => recordExecution query p.1 p.2 s) sk).FailedQueryCount
          = (steps.foldl (fun s p => recordExecution query p.1 p.2 s) sk).TotalQueries :=
  ⟨countersAgree_foldl_recordExecution query steps (countersAgree_initialStats start),
    fun k _ hk => countersAgree_foldl_recordExecution query steps
      (countersAgree_runWorkers query env c i k (countersAgree_initialStats start) hk)⟩

/-- C2, at a run of two workers followed by one failed and one successful
execution. -/
theorem successful_plus_failed_eq_total_witness :
    ∃ sk, runWorkers "SELECT 1" (Env.allSucceed 5) 2 1 2 (initialStats 0) = some sk ∧
      (recordExecution "SELECT 1" 1 ⟨3, true⟩ (recordExecution "SELECT 1" 2 ⟨7, false⟩ sk)).SuccessfulQueries
        + (recordExecution "SELECT 1" 1 ⟨3, true⟩
            (recordExecution "SELECT 1" 2 ⟨7, false⟩ sk)).FailedQueryCount
        = (recordExecution "SELECT 1" 1 ⟨3, true⟩
            (recordExecution "SELECT 1" 2 ⟨7, false⟩ sk)).TotalQueries := by
  obtain ⟨sk, hk, _⟩ := runWorkers_TotalQueries "SELECT 1" (Env.allSucceed 5) 2 1 (by decide)
    (by decide) (initialStats 0) (by decide) 2
  exact ⟨sk, hk, (successful_plus_failed_eq_total "SELECT 1" 0 (Env.allSucceed 5) 2 1
    [(2, ⟨7, false⟩), (1, ⟨3, true⟩)]).2 2 sk hk⟩

/-- C3: after a complete run with `concurrency = 2`, `iteration = 1` the keys
of `QueriesPerUser` are 1 and 2, and both entries have `TotalQueries = 2`
(not 1). -/
theorem stressTest_perUser_two_workers_one_iteration :
    (stressTest "SELECT 1" (Env.allSucceed 5000000) 2 1 (initialStats 0)).map
        (fun s => ((s.QueriesPerUser 0).isSome, (s.QueriesPerUser 1).map fun u => u.TotalQueries,
          (s.QueriesPerUser 2).map fun u => u.TotalQueries, (s.QueriesPerUser 3).isSome))
      = some (false, some 2, some 2, false) := by
  decide

/-- C4, refuted as stated: user 1 with a 0 ns sample and a 4 ns sample.  In
the order 0, 4 the entry ends with `ShortestTime = 4` (the stored 0 is taken
for "no sample yet"), in the order 4, 0 with `ShortestTime = 0`. -/
theorem recordAll_order_dependent_at_zero :
    List.Perm [((1 : Int), (⟨0, true⟩ : Outcome)), (1, ⟨4, true⟩)]
        [(1, ⟨4, true⟩), (1, ⟨0, true⟩)] ∧
      (∀ p ∈ [((1 : Int), (⟨0, true⟩ : Outcome)), (1, ⟨4, true⟩)], 0 ≤ p.2.elapsed) ∧
      recordAll "SELECT 1" [(1, ⟨0, true⟩), (1, ⟨4, true⟩)] (initialStats 0)
        ≠ recordAll "SELECT 1" [(1, ⟨4, true⟩), (1, ⟨0, true⟩)] (initialStats 0) := by
  refine ⟨List.Perm.swap _ _ _, by decide, fun h => ?_⟩
  have h1 := congrArg (fun s => (s.QueriesPerUser 1).map fun u => u.ShortestTime) h
  revert h1
  decide

/-- C4 (amended): for every list of execution samples (user id, elapsed
duration `> 0`, success flag) and every permutation of it, folding the loop
body of `runQuery` over the list and over the permutation, from the same
`QueryStats`, yields the same final `QueryStats`. -/
theorem recordAll_perm (query : String) (stats : QueryStats) (l₁ l₂ : List (Int × Outcome))
    (hperm : l₁.Perm l₂) (hpos : ∀ p ∈ l₁, 0 < p.2.elapsed) :
    recordAll query l₁ stats = recordAll query l₂ stats := by
  unfold recordAll
  exact hperm.foldl_eq' (fun x hx y hy z => recordExecution_comm query x y (hpos x hx) (hpos y hy) z)
    stats

/-- C4 (amended), at three samples of two users and a rotation of them. -/
theorem recordAll_perm_witness :
    recordAll "SELECT 1" [(1, ⟨3, true⟩), (2, ⟨9, false⟩), (1, ⟨4, true⟩)] (initialStats 0)
      = recordAll "SELECT 1" [(1, ⟨4, true⟩), (1, ⟨3, true⟩), (2, ⟨9, false⟩)] (initialStats 0) :=
  recordAll_perm "SELECT 1" (initialStats 0) [(1, ⟨3, true⟩), (2, ⟨9, false⟩), (1, ⟨4, true⟩)]
    [(1, ⟨4, true⟩), (1, ⟨3, true⟩), (2, ⟨9, false⟩)] (by decide) (by decide)

/-- C5, refuted as stated: after the samples 0 ns and 4 ns the entry has
`ShortestTime = 4` above the average `4 / 2 = 2` (a 0 ns sample is taken for
"no sample yet"); and after two samples of `2^62` ns `TotalTime` has wrapped
around, so the average `-2^62` is below `ShortestTime = 2^62`. -/
theorem perUser_average_below_shortest :
    (∃ u avg,
        ([⟨0, true⟩, ⟨4, true⟩].foldl (fun s x => recordExecution "SELECT 1" 1 x s)
          (initialStats 0)).QueriesPerUser 1 = some u ∧
        averageTime u = some avg ∧ u.ShortestTime = 4 ∧ avg = 2) ∧
      (∃ u avg,
        ([⟨4611686018427387904, true⟩, ⟨4611686018427387904, true⟩].foldl
          (fun s x => recordExecution "SELECT 1" 1 x s) (initialStats 0)).QueriesPerUser 1 = some u ∧
        averageTime u = some avg ∧ u.ShortestTime = 4611686018427387904 ∧
        avg = -4611686018427387904) :=
  ⟨⟨_, _, rfl, rfl, by decide, by decide⟩, ⟨_, _, rfl, rfl, by decide, by decide⟩⟩

/-- C5 (amended): for every sequence of one or more samples with elapsed
duration `> 0` whose sum fits in `int64`, recorded for a user by the loop body
of `runQuery` starting from a map without an entry for that user, the entry
satisfies `ShortestTime ≤ TotalTime / TotalQueries ≤ LongestTime`, the
quotient being the one computed in `printQueriesPerUser` (which does not
panic). -/
theorem perUser_average_between_extremes (query : String) (user : Int) (s : QueryStats)
    (hs : s.QueriesPerUser user = none) (o : Outcome) (os : List Outcome)
    (hpos : ∀ x ∈ o :: os, 0 < x.elapsed)
    (hsum : ((o :: os).map Outcome.elapsed).sum ≤ maxInt64) :
    ∃ u avg,
      ((o :: os).foldl (fun s x => recordExecution query user x s) s).QueriesPerUser user
        = some u ∧
      averageTime u = some avg ∧ u.ShortestTime ≤ avg ∧ avg ≤ u.LongestTime := by
  have ho : 0 < o.elapsed := hpos o (List.mem_cons_self _ _)
  have hos : ∀ e ∈ os.map Outcome.elapsed, 0 < e := by
    intro e he
    obtain ⟨x, hx, rfl⟩ := List.mem_map.mp he
    exact hpos x (List.mem_cons_of_mem _ hx)
  have hnn : 0 ≤ (os.map Outcome.elapsed).sum := List.sum_nonneg fun x hx => le_of_lt (hos x hx)
  rw [List.map_cons, List.sum_cons] at hsum
  obtain ⟨hb, ht⟩ := bounded_first query ho (by omega)
  have hB := bounded_foldl query (os.map Outcome.elapsed) hb hos (by rw [ht]; exact hsum)
  have hT := bounded_foldl_TotalTime query (os.map Outcome.elapsed) hb hos
    (by rw [ht]; exact hsum)
  rw [ht] at hT
  obtain ⟨avg, ha, h1, h2⟩ := bounded_average hB (by rw [hT]; exact hsum)
  refine ⟨_, avg, ?_, ha, h1, h2⟩
  rw [foldl_recordExecution_QueriesPerUser_self, hs]
  rfl

/-- C5 (amended), at the samples 3 ns, 9 ns, 4 ns of user 1. -/
theorem perUser_average_between_extremes_witness :
    ∃ u avg,
      ([⟨3, true⟩, ⟨9, false⟩, ⟨4, true⟩].foldl (fun s x => recordExecution "SELECT 1" 1 x s)
        (initialStats 0)).QueriesPerUser 1 = some u ∧
      averageTime u = some avg ∧ u.ShortestTime ≤ avg ∧ avg ≤ u.LongestTime :=
  perUser_average_between_extremes "SELECT 1" 1 (initialStats 0) rfl ⟨3, true⟩
    [⟨9, false⟩, ⟨4, true⟩] (by decide) (by decide)

/-- C6, refuted as stated: two calls with elapsed time 5 ns, the first with
`TotalQueries = 1`, the second with `TotalQueries = 2`, leave
`MinQueryTime = 5` above `AverageQueryTime = 5*1/2 + 5/2 = 4`; and a call
with `TotalQueries = 2^23 + 1` after an average of `2^40` ns wraps the product
around and leaves a negative average. -/
theorem globalAverage_below_min :
    (updateAll [(1, 5), (2, 5)] (initialStats 0)).map
        (fun s => (s.MinQueryTime, s.AverageQueryTime, s.MaxQueryTime)) = some (5, 4, 5) ∧
      (updateAll [(1, 1099511627776), (8388609, 1099511627776)] (initialStats 0)).map
        (fun s => (s.MinQueryTime, s.AverageQueryTime, s.MaxQueryTime))
        = some (1099511627776, -1099511365633, 1099511627776) := by
  decide

/-- C6 (amended): for every sequence of one or more calls of
`updateQueryTimeStats` with elapsed times in `0 .. E` and `TotalQueries` in
`1 .. N` at each call, where `E * N` fits in `int64`, starting from the initial
`QueryStats`, no call panics and the resulting state satisfies
`0 ≤ AverageQueryTime ≤ MaxQueryTime` and `0 ≤ MinQueryTime ≤ MaxQueryTime`. -/
theorem globalAverage_at_most_max (E N start : Int) (call : Int × Int) (calls : List (Int × Int))
    (hEN : E * N ≤ maxInt64)
    (hcalls : ∀ p ∈ call :: calls, 1 ≤ p.1 ∧ p.1 ≤ N ∧ 0 ≤ p.2 ∧ p.2 ≤ E) :
    ∃ s, updateAll (call :: calls) (initialStats start) = some s ∧
      0 ≤ s.AverageQueryTime ∧ s.AverageQueryTime ≤ s.MaxQueryTime ∧
      0 ≤ s.MinQueryTime ∧ s.MinQueryTime ≤ s.MaxQueryTime := by
  have hE : 0 ≤ E := by
    obtain ⟨_, _, h3, h4⟩ := hcalls call (List.mem_cons_self _ _)
    omega
  have h0 : (initialStats start).TimesOrdered E :=
    ⟨le_refl _, le_refl _, le_refl _, le_refl _, hE⟩
  obtain ⟨s, hs, a0, a1, m0, m1, _⟩ := timesOrdered_updateAll hEN (call :: calls) h0 hcalls
  exact ⟨s, hs, a0, a1, m0, m1⟩

/-- C6 (amended), at the calls `(1, 5)`, `(2, 5)`, `(4, 9)` with `E = 9`,
`N = 4`. -/
theorem globalAverage_at_most_max_witness :
    ∃ s, updateAll [(1, 5), (2, 5), (4, 9)] (initialStats 0) = some s ∧
      0 ≤ s.AverageQueryTime ∧ s.AverageQueryTime ≤ s.MaxQueryTime ∧
      0 ≤ s.MinQueryTime ∧ s.MinQueryTime ≤ s.MaxQueryTime :=
  globalAverage_at_most_max 9 4 0 (1, 5) [(2, 5), (4, 9)] (by decide) (by decide)

/-- C7, refuted as stated: with `TotalQueries = 2`, previous average 1 and
elapsed time 1, `updateQueryTimeStats` stores `1*1/2 + 1/2 = 0`, while
`a + (d - a) / n = 1`. -/
theorem updateQueryTimeStats_not_specIncrementalMean :
    (updateQueryTimeStats
        { initialStats 0 with TotalQueries := 2, AverageQueryTime := 1 } 1).map
        (fun s => s.AverageQueryTime) = some 0 ∧
      specIncrementalMean 1 1 2 = some 1 := by
  decide

/-- C7 (amended): for every `QueryStats` with `TotalQueries = n ≥ 1` and
previous `AverageQueryTime = a`, and every elapsed time `d`,
`updateQueryTimeStats` succeeds and sets `AverageQueryTime` to
`a * (n - 1) / n + d / n`: two separately truncated `int64` quotients, the
product and the sum wrapping around.  When `0 ≤ a`, `0 ≤ d ≤ maxInt64` and
`a * (n - 1) ≤ maxInt64` nothing wraps and the value is the plain
`a * (n - 1) / n + d / n`. -/
theorem updateQueryTimeStats_average (stats : QueryStats) (d : Int)
    (hn : 1 ≤ stats.TotalQueries) :
    ∃ s, updateQueryTimeStats stats d = some s ∧
      s.AverageQueryTime
        = wrap64 (wrap64 (Int.tdiv (wrap64 (stats.AverageQueryTime * (stats.TotalQueries - 1)))
              stats.TotalQueries)
            + wrap64 (Int.tdiv d stats.TotalQueries)) ∧
      (0 ≤ stats.AverageQueryTime → 0 ≤ d → d ≤ maxInt64 →
        stats.AverageQueryTime * (stats.TotalQueries - 1) ≤ maxInt64 →
        s.AverageQueryTime
          = stats.AverageQueryTime * (stats.TotalQueries - 1) / stats.TotalQueries
            + d / stats.TotalQueries) := by
  rw [updateQueryTimeStats_some stats d (by omega)]
  refine ⟨_, rfl, rfl, ?_⟩
  intro ha hd hdm hp
  simp only [add64, mul64]
  unfold maxInt64 at hdm hp
  set a := stats.AverageQueryTime
  set n := stats.TotalQueries
  have hn0 : 0 ≤ n := by omega
  have hp0 : 0 ≤ a * (n - 1) := mul_nonneg ha (by omega)
  rw [wrap64_of_range (by omega) hp, Int.tdiv_eq_ediv hp0 hn0, Int.tdiv_eq_ediv hd hn0]
  have hq1 : 0 ≤ a * (n - 1) / n := Int.ediv_nonneg hp0 hn0
  have hq2 : 0 ≤ d / n := Int.ediv_nonneg hd hn0
  have hm1 : a * (n - 1) / n * n ≤ a * (n - 1) := Int.ediv_mul_le _ (by omega)
  have hm2 : d / n * n ≤ d := Int.ediv_mul_le _ (by omega)
  have hq1' : a * (n - 1) / n ≤ a * (n - 1) := by nlinarith
  have hq2' : d / n ≤ d := by nlinarith
  have e1 : wrap64 (a * (n - 1) / n) = a * (n - 1) / n :=
    wrap64_of_range (by omega) (by omega)
  have e2 : wrap64 (d / n) = d / n := wrap64_of_range (by omega) (by omega)
  rw [e1, e2]
  apply wrap64_of_range (by omega)
  rcases eq_or_lt_of_le hn with h1 | h2
  · have : n - 1 = 0 := by omega
    rw [this]; simp; omega
  · have h2q1 : 2 * (a * (n - 1) / n) ≤ a * (n - 1) := by nlinarith
    have h2q2 : 2 * (d / n) ≤ d := by nlinarith
    omega

/-- C7 (amended), at `n = 2`, `a = 1`, `d = 1`. -/
theorem updateQueryTimeStats_average_witness :
    ∃ s, updateQueryTimeStats { initialStats 0 with TotalQueries := 2, AverageQueryTime := 1 } 1
        = some s ∧
      s.AverageQueryTime
        = wrap64 (wrap64 (Int.tdiv (wrap64 (1 * (2 - 1))) 2) + wrap64 (Int.tdiv 1 2)) ∧
      ((0 : Int) ≤ 1 → (0 : Int) ≤ 1 → 1 ≤ maxInt64 → (1 : Int) * (2 - 1) ≤ maxInt64 →
        s.AverageQueryTime = 1 * (2 - 1) / 2 + 1 / 2) :=
  updateQueryTimeStats_average { initialStats 0 with TotalQueries := 2, AverageQueryTime := 1 } 1
    (by decide)

/-- C9: for every `count`, `calculatePercentage count 0` is `0`; the guard
returns before the division, so the result is `0` whatever the division would
do, a failing division included. -/
theorem calculatePercentage_total_zero (count : Int) :
    calculatePercentage count 0 = 0.0 ∧
      ∀ fdiv : Float → Float → Option Float, calculatePercentageWith fdiv count 0 = some 0.0 :=
  ⟨by simp [calculatePercentage], fun fdiv => by simp [calculatePercentageWith]⟩

/-- C10: under `concurrency ≥ 1` and `iteration ≥ 1`, for every environment
(every sequence of query outcomes) and every worker `k`, the workers before
`k` complete without panic, worker `k` reaches its call of
`updateQueryTimeStats` with `TotalQueries ≥ 1`, that call does not take the
divide-by-zero branch, and the whole run completes. -/
theorem updateQueryTimeStats_reached_with_positive_total (query : String) (env : Env)
    (c i start : Int) (hc : 1 ≤ c) (hi : 1 ≤ i) (k : Nat) :
    ∃ sk, runWorkers query env c i k (initialStats start) = some sk ∧
      1 ≤ (runQueryLoop query (env.exec k) c i sk).TotalQueries ∧
      (updateQueryTimeStats (runQueryLoop query (env.exec k) c i sk) (env.since k)).isSome ∧
      (stressTest query env c i (initialStats start)).isSome := by
  obtain ⟨sk, hk, hT⟩ := runWorkers_TotalQueries query env c i hc hi (initialStats start)
    (le_refl _) k
  obtain ⟨sc, hsc, _⟩ := runWorkers_TotalQueries query env c i hc hi (initialStats start)
    (le_refl _) c.toNat
  have hpos : (0 : Int) < c.toNat * i.toNat := by
    have h1 : (c.toNat : Int) = c := Int.toNat_of_nonneg (by omega)
    have h2 : (i.toNat : Int) = i := Int.toNat_of_nonneg (by omega)
    rw [h1, h2]; positivity
  have hk0 : 0 ≤ (k : Int) * (c.toNat * i.toNat) := by positivity
  have h0 : (initialStats start).TotalQueries = 0 := rfl
  have hge : 1 ≤ (runQueryLoop query (env.exec k) c i sk).TotalQueries := by
    rw [runQueryLoop_TotalQueries, hT, h0]; omega
  refine ⟨sk, hk, hge, ?_, ?_⟩
  · rw [updateQueryTimeStats_some _ _ (by omega)]; rfl
  · unfold stressTest; rw [hsc]; rfl

/-- C10, at `concurrency = 2`, `iteration = 1`, second worker. -/
theorem updateQueryTimeStats_reached_with_positive_total_witness :
    ∃ sk, runWorkers "SELECT 1" (Env.allSucceed 5) 2 1 1 (initialStats 0) = some sk ∧
      1 ≤ (runQueryLoop "SELECT 1" ((Env.allSucceed 5).exec 1) 2 1 sk).TotalQueries ∧
      (updateQueryTimeStats (runQueryLoop "SELECT 1" ((Env.allSucceed 5).exec 1) 2 1 sk)
        ((Env.allSucceed 5).since 1)).isSome ∧
      (stressTest "SELECT 1" (Env.allSucceed 5) 2 1 (initialStats 0)).isSome :=
  updateQueryTimeStats_reached_with_positive_total "SELECT 1" (Env.allSucceed 5) 2 1 0
    (by decide) (by decide) 1

end Stress
